import Mathlib

/-!
# uhd_simple_source: streaming acquisition loop and stream lifecycle

A shallow embedding of `gr-uhd/lib/uhd_simple_source.cc`.

* The device behind `_dev` is an external collaborator: it is a parameter
  (`simple_usrp`), a state machine over an arbitrary state type `σ`.
* `size_t` is a 64 bit unsigned integer (arithmetic modulo `2^64`), `int` a
  32 bit signed integer.
* Every operation returns, next to the new object state, the list of effects
  it performed, in program order: the calls made on the device and the
  assignments to the member `_is_streaming`.
* Every call on the device may throw: `make`, `issue_stream_cmd` and `recv`.
  An exception leaves the function it passes through at once.
* The block is owned through the `boost::shared_ptr` that
  `uhd_make_simple_source` returns, so its destructor runs once.
* The `while` loop of `work` may run forever on a device that misreports its
  counts, so the loop takes a bound on the number of iterations and answers
  `Outcome.running` when the bound is used up before the loop has finished.
-/

namespace UhdSimpleSource

/-! ## Machine integers -/

/-- Number of values of a `size_t`. -/
def SIZE_MOD : Nat := 2 ^ 64

/-- Conversion `size_t(x)` of an `int` value. -/
def to_size_t (x : Int) : Nat := (x % (SIZE_MOD : Int)).toNat

/-- Conversion of a `size_t` value to the `int` that `work` returns
(twos complement, 32 bits). -/
def to_int (x : Nat) : Int :=
  if x % 2 ^ 32 < 2 ^ 31 then ((x % 2 ^ 32 : Nat) : Int)
  else ((x % 2 ^ 32 : Nat) : Int) - 2 ^ 32

/-! ## The device -/

/-- The two stream modes of `uhd::stream_cmd_t` the block uses. -/
inductive stream_mode_t where
  | STREAM_MODE_START_CONTINUOUS
  | STREAM_MODE_STOP_CONTINUOUS
  deriving DecidableEq

/-- What one call of `recv` gives back: the number of items read, or the
error it throws. -/
inductive recv_result (ε : Type) where
  | items (n : Nat)
  | fault (e : ε)
  deriving DecidableEq

/-- The device interface the block consumes. `make` is
`uhd::usrp::simple_usrp::make(args)`, which may throw; `issue_stream_cmd`
returns nothing or throws (`some e`); `recv` is handed the buffer (byte offset
from `output_items[0]`, length in bytes) and the item type (its size in bytes)
and returns the number of items read or throws. Each call may change the state
of the device, also when it throws. -/
structure simple_usrp (σ ε : Type) where
  make : String → Except ε σ
  issue_stream_cmd : stream_mode_t → σ → Option ε × σ
  recv : (offset nbytes type_size : Nat) → σ → recv_result ε × σ

/-- One call of `recv` as the block made it: the buffer it passed and what it
got back (the item count as the `size_t` the block reads). -/
structure recv_call (ε : Type) where
  offset : Nat
  nbytes : Nat
  result : recv_result ε
  deriving DecidableEq

/-- The effects of the block, in program order. A stream command is recorded
when it is issued, with the error it threw (`none` when it returned). -/
inductive Effect (ε : Type) where
  | issue_stream_cmd (mode : stream_mode_t) (thrown : Option ε)
  | set_is_streaming (enb : Bool)
  | recv (call : recv_call ε)
  deriving DecidableEq

/-! ## The block -/

/-- The members of `uhd_simple_source`: the device, the size in bytes of the
item type `_type`, and the cached streaming flag. -/
structure uhd_simple_source (σ : Type) where
  _dev : σ
  _type_size : Nat
  _is_streaming : Bool
  deriving DecidableEq

/-- How a call of `work` ends: it returns an `int`, it throws, or it is still
in its loop when the iteration bound is used up. -/
inductive Outcome (ε : Type) where
  | returned (v : Int)
  | threw (e : ε)
  | running
  deriving DecidableEq

variable {σ ε : Type}

/-- Method `uhd_simple_source::set_streaming`. When `issue_stream_cmd`
throws, the assignment `_is_streaming = enb` after it is not reached and the
error leaves the method (`some e`). -/
def set_streaming (D : simple_usrp σ ε) (self : uhd_simple_source σ) (enb : Bool) :
    Option ε × uhd_simple_source σ × List (Effect ε) :=
  if enb then
    match D.issue_stream_cmd .STREAM_MODE_START_CONTINUOUS self._dev with
    | (some e, dev1) =>
      (some e, ⟨dev1, self._type_size, self._is_streaming⟩,
        [.issue_stream_cmd .STREAM_MODE_START_CONTINUOUS (some e)])
    | (none, dev1) =>
      (none, ⟨dev1, self._type_size, enb⟩,
        [.issue_stream_cmd .STREAM_MODE_START_CONTINUOUS none, .set_is_streaming enb])
  else
    match D.issue_stream_cmd .STREAM_MODE_STOP_CONTINUOUS self._dev with
    | (some e, dev1) =>
      (some e, ⟨dev1, self._type_size, self._is_streaming⟩,
        [.issue_stream_cmd .STREAM_MODE_STOP_CONTINUOUS (some e)])
    | (none, dev1) =>
      (none, ⟨dev1, self._type_size, enb⟩,
        [.issue_stream_cmd .STREAM_MODE_STOP_CONTINUOUS none, .set_is_streaming enb])

/-- The constructor: `_dev = make(args)`, then `set_streaming(false)`. When
`make` throws, the constructor is left at once; when `set_streaming` throws,
construction fails as well. `garbage` is the value the member `_is_streaming`,
which has no initialiser, happens to hold before `set_streaming` assigns it. -/
def uhd_simple_source_ctor (D : simple_usrp σ ε) (args : String) (type_size : Nat)
    (garbage : Bool) : Except ε (uhd_simple_source σ) × List (Effect ε) :=
  match D.make args with
  | .error e => (.error e, [])
  | .ok dev =>
    match set_streaming D ⟨dev, type_size, garbage⟩ false with
    | (some e, _, effects) => (.error e, effects)
    | (none, self, effects) => (.ok self, effects)

/-- The destructor: `set_streaming(false)`. -/
def uhd_simple_source_dtor (D : simple_usrp σ ε) (self : uhd_simple_source σ) :
    Option ε × uhd_simple_source σ × List (Effect ε) :=
  set_streaming D self false

/-- The `while` loop of `work`, given at most `fuel` iterations.
`total_items_read` is a `size_t`; the buffer handed to `recv` starts at
`total_items_read*_type.size` bytes and is
`(noutput_items-total_items_read)*_type.size` bytes long, both computed in
`size_t`. -/
def work_loop (D : simple_usrp σ ε) (type_size : Nat) (noutput_items : Int) :
    Nat → σ → Nat → Outcome ε × σ × List (recv_call ε)
  | 0, dev, total_items_read =>
    if total_items_read < to_size_t noutput_items then (.running, dev, [])
    else (.returned (to_int total_items_read), dev, [])
  | fuel + 1, dev, total_items_read =>
    if total_items_read < to_size_t noutput_items then
      let offset := (total_items_read * type_size) % SIZE_MOD
      let nbytes :=
        (((to_size_t noutput_items + SIZE_MOD - total_items_read) % SIZE_MOD) * type_size)
          % SIZE_MOD
      match D.recv offset nbytes type_size dev with
      | (.fault e, dev1) => (.threw e, dev1, [⟨offset, nbytes, .fault e⟩])
      | (.items r, dev1) =>
        let items_read := r % SIZE_MOD
        let total1 := (total_items_read + items_read) % SIZE_MOD
        if items_read = 0 then
          (.returned (to_int total1), dev1, [⟨offset, nbytes, .items items_read⟩])
        else
          let rest := work_loop D type_size noutput_items fuel dev1 total1
          (rest.1, rest.2.1, ⟨offset, nbytes, .items items_read⟩ :: rest.2.2)
    else (.returned (to_int total_items_read), dev, [])

/-- Method `uhd_simple_source::work`, its loop given at most `fuel`
iterations. When `set_streaming(true)` throws, `work` is left before its
loop. -/
def work (D : simple_usrp σ ε) (fuel : Nat) (self : uhd_simple_source σ)
    (noutput_items : Int) : Outcome ε × uhd_simple_source σ × List (Effect ε) :=
  let started : Option ε × uhd_simple_source σ × List (Effect ε) :=
    if !self._is_streaming then set_streaming D self true else (none, self, [])
  match started with
  | (some e, self1, effects) => (.threw e, self1, effects)
  | (none, self1, effects) =>
    let looped := work_loop D self1._type_size noutput_items fuel self1._dev 0
    (looped.1, ⟨looped.2.1, self1._type_size, self1._is_streaming⟩,
      effects ++ looped.2.2.map Effect.recv)

/-! ## Reading the effects -/

/-- The item count of a call of `recv` (none when it threw). -/
def recv_call.count (c : recv_call ε) : Nat :=
  match c.result with
  | .items r => r
  | .fault _ => 0

/-- The sum, as a natural number, of the item counts of a list of calls. -/
def items_sum (calls : List (recv_call ε)) : Nat :=
  (calls.map recv_call.count).sum

/-- The calls of `recv` among some effects, in order. -/
def recv_calls : List (Effect ε) → List (recv_call ε)
  | [] => []
  | .recv c :: rest => c :: recv_calls rest
  | _ :: rest => recv_calls rest

/-- The stream commands issued among some effects, in order, whether they
returned or threw. -/
def stream_cmds : List (Effect ε) → List stream_mode_t
  | [] => []
  | .issue_stream_cmd m _ :: rest => m :: stream_cmds rest
  | _ :: rest => stream_cmds rest

/-- The stream commands among some effects that returned without an error, in
order. -/
def completed_cmds : List (Effect ε) → List stream_mode_t
  | [] => []
  | .issue_stream_cmd m none :: rest => m :: completed_cmds rest
  | _ :: rest => completed_cmds rest

/-- The number of items a call of `recv` asks for: the items of `type_size`
bytes that fit in its buffer. -/
def requested (type_size : Nat) (c : recv_call ε) : Nat := c.nbytes / type_size

/-- A device whose `recv` never reports more items than fit in the buffer it
was handed. -/
def reports_at_most_requested (D : simple_usrp σ ε) (type_size : Nat) : Prop :=
  ∀ offset nbytes dev r dev1,
    D.recv offset nbytes type_size dev = (.items r, dev1) → r ≤ nbytes / type_size

/-! ## Devices used as examples -/

/-- A device that always has data: `recv` reports `min(requested, k)` items. -/
def chunk_device (k : Nat) : simple_usrp Unit String where
  make := fun _ => .ok ()
  issue_stream_cmd := fun _ dev => (none, dev)
  recv := fun _ nbytes type_size dev => (.items (min (nbytes / type_size) k), dev)

/-- A device that plays a script: each `recv` gives the next entry whatever
was asked, and zero items once the script is over. -/
def script_device (script : List (recv_result String)) :
    simple_usrp (List (recv_result String)) String where
  make := fun _ => .ok script
  issue_stream_cmd := fun _ dev => (none, dev)
  recv := fun _ _ _ dev =>
    match dev with
    | [] => (.items 0, [])
    | r :: rest => (r, rest)

/-- A device that cannot be reached: `make` throws. -/
def unreachable_device : simple_usrp Unit String where
  make := fun args => .error ("no device at " ++ args)
  issue_stream_cmd := fun _ dev => (none, dev)
  recv := fun _ _ _ dev => (.items 0, dev)

/-- A device that has `avail` items to give: `recv` reports
`min(requested, left)` items and keeps the rest for later calls. -/
def budget_device (avail : Nat) : simple_usrp Nat String where
  make := fun _ => .ok avail
  issue_stream_cmd := fun _ dev => (none, dev)
  recv := fun _ nbytes type_size dev =>
    (.items (min (nbytes / type_size) dev), dev - min (nbytes / type_size) dev)

/-- A device that refuses to start: `issue_stream_cmd` throws on a
start-continuous command and accepts a stop-continuous one. -/
def refusing_device : simple_usrp Unit String where
  make := fun _ => .ok ()
  issue_stream_cmd := fun mode dev =>
    match mode with
    | .STREAM_MODE_START_CONTINUOUS => (some "start refused", dev)
    | .STREAM_MODE_STOP_CONTINUOUS => (none, dev)
  recv := fun _ _ _ dev => (.items 0, dev)

/-! ## Sequences of calls on the block -/

/-- A call a user of the block can make while the block lives. -/
inductive Call where
  | set_streaming (enb : Bool)
  | work (fuel : Nat) (noutput_items : Int)
  deriving DecidableEq

/-- The block after one call, and the effects of the call. A call that throws
leaves the block as it was when the error was thrown. -/
def step (D : simple_usrp σ ε) (self : uhd_simple_source σ) :
    Call → uhd_simple_source σ × List (Effect ε)
  | .set_streaming enb => (set_streaming D self enb).2
  | .work fuel noutput_items => (work D fuel self noutput_items).2

/-- The block after a sequence of calls, and all their effects in order. -/
def run (D : simple_usrp σ ε) : List Call → uhd_simple_source σ →
    uhd_simple_source σ × List (Effect ε)
  | [], self => (self, [])
  | c :: cs, self =>
    let first := step D self c
    let rest := run D cs first.1
    (rest.1, first.2 ++ rest.2)

/-- The stream mode that `set_streaming(enb)` sends. -/
def mode_of (enb : Bool) : stream_mode_t :=
  if enb then .STREAM_MODE_START_CONTINUOUS else .STREAM_MODE_STOP_CONTINUOUS

/-- Every stream command among the effects that returned is followed at once
by the assignment of the matching value to `_is_streaming`, a stream command
that threw is followed by no assignment, and `_is_streaming` is assigned
nowhere else. -/
def flag_follows_cmd : List (Effect ε) → Bool
  | [] => true
  | .issue_stream_cmd m none :: .set_is_streaming b :: rest =>
    decide (m = mode_of b) && flag_follows_cmd rest
  | .issue_stream_cmd _ (some _) :: rest => flag_follows_cmd rest
  | .recv _ :: rest => flag_follows_cmd rest
  | _ => false

/-- The flag agrees with the effects so far: it is true exactly when the last
stream command that returned without an error was start-continuous, false
exactly when it was stop-continuous, and it was assigned only next to such a
command (`flag_follows_cmd`). -/
def flag_mirrors (flag : Bool) (effects : List (Effect ε)) : Prop :=
  (flag = true ↔ (completed_cmds effects).getLast? = some .STREAM_MODE_START_CONTINUOUS) ∧
  (flag = false ↔ (completed_cmds effects).getLast? = some .STREAM_MODE_STOP_CONTINUOUS) ∧
  flag_follows_cmd effects = true

/-! ## Definitions used by the proofs -/

/-- Byte offset of the buffer handed to `recv` when `total` items were read. -/
def offset_at (ts total : Nat) : Nat := (total * ts) % SIZE_MOD

/-- Byte length of the buffer handed to `recv` when `total` items were read. -/
def nbytes_at (ts : Nat) (n : Int) (total : Nat) : Nat :=
  (((to_size_t n + SIZE_MOD - total) % SIZE_MOD) * ts) % SIZE_MOD

/-- A device whose `recv` never reports zero items when at least one item
fits in the buffer it was handed. -/
def never_zero_when_requested (D : simple_usrp σ ε) (type_size : Nat) : Prop :=
  ∀ offset nbytes dev dev1,
    0 < nbytes / type_size → D.recv offset nbytes type_size dev ≠ (.items 0, dev1)

/-- A device whose `recv` always reports `min(requested, k)` items. -/
def reports_min_requested (D : simple_usrp σ ε) (type_size k : Nat) : Prop :=
  ∀ offset nbytes dev,
    (D.recv offset nbytes type_size dev).1 = .items (min (nbytes / type_size) k)

/-- The call of `recv` number `i` (from zero) of a fill of `N` items in
chunks of `k`, `total` items being there already. -/
def chunk_call (ε : Type) (ts N k total i : Nat) : recv_call ε :=
  ⟨(total + i * k) * ts, (N - (total + i * k)) * ts, .items (min (N - (total + i * k)) k)⟩

/-- The device state the loop of `work` starts from. -/
def work_dev (D : simple_usrp σ ε) (self : uhd_simple_source σ) : σ :=
  if self._is_streaming then self._dev
  else (D.issue_stream_cmd .STREAM_MODE_START_CONTINUOUS self._dev).2

/-- The error, if any, that ends `work` before its loop: the one thrown by
the start-continuous command that `work` issues when `_is_streaming` is
false. -/
def start_error (D : simple_usrp σ ε) (self : uhd_simple_source σ) : Option ε :=
  if self._is_streaming then none
  else (D.issue_stream_cmd .STREAM_MODE_START_CONTINUOUS self._dev).1

/-- The effects of `work` before its loop, when it reaches its loop. -/
def work_start_effects (ε : Type) (flag : Bool) : List (Effect ε) :=
  if flag then []
  else [.issue_stream_cmd .STREAM_MODE_START_CONTINUOUS none, .set_is_streaming true]

/-! # Theorems -/

/-! ## Arithmetic of the machine integers -/

theorem to_size_t_lt (x : Int) : to_size_t x < SIZE_MOD := by
  unfold to_size_t SIZE_MOD
  have h1 : (0 : Int) ≤ x % ((2 ^ 64 : Nat) : Int) := Int.emod_nonneg _ (by norm_num)
  have h2 : x % ((2 ^ 64 : Nat) : Int) < ((2 ^ 64 : Nat) : Int) := Int.emod_lt_of_pos _ (by norm_num)
  omega

theorem to_size_t_natCast (m : Nat) (h : m < SIZE_MOD) : to_size_t (m : Int) = m := by
  unfold to_size_t SIZE_MOD at *
  have : ((m : Int) % ((2 ^ 64 : Nat) : Int)) = (m : Int) :=
    Int.emod_eq_of_lt (by omega) (by omega)
  rw [this]; simp

theorem to_int_of_lt (x : Nat) (h : x < 2 ^ 31) : to_int x = (x : Int) := by
  unfold to_int
  have h1 : x % 2 ^ 32 = x := Nat.mod_eq_of_lt (by omega)
  rw [h1, if_pos h]

theorem remaining_eq (N total : Nat) (hN : N < SIZE_MOD) (h : total ≤ N) :
    (N + SIZE_MOD - total) % SIZE_MOD = N - total := by
  unfold SIZE_MOD at *
  omega

theorem bytes_div_le (x ts : Nat) : (x * ts % SIZE_MOD) / ts ≤ x := by
  rcases Nat.eq_zero_or_pos ts with h | h
  · subst h; simp
  · calc (x * ts % SIZE_MOD) / ts ≤ (x * ts) / ts := Nat.div_le_div_right (Nat.mod_le _ _)
      _ = x := Nat.mul_div_cancel _ h

theorem bytes_div_eq (x ts : Nat) (hts : 1 ≤ ts) (h : x * ts < SIZE_MOD) :
    (x * ts % SIZE_MOD) / ts = x := by
  rw [Nat.mod_eq_of_lt h, Nat.mul_div_cancel _ hts]

/-! ## The loop, one iteration at a time -/

theorem work_loop_done (D : simple_usrp σ ε) (ts : Nat) (n : Int) (fuel : Nat) (dev : σ)
    (total : Nat) (h : ¬ total < to_size_t n) :
    work_loop D ts n fuel dev total = (.returned (to_int total), dev, []) := by
  cases fuel <;> simp [work_loop, h]

theorem work_loop_fault (D : simple_usrp σ ε) (ts : Nat) (n : Int) (fuel : Nat) (dev : σ)
    (total : Nat) (h : total < to_size_t n) (e : ε) (dev1 : σ)
    (hr : D.recv ((total * ts) % SIZE_MOD)
      ((((to_size_t n + SIZE_MOD - total) % SIZE_MOD) * ts) % SIZE_MOD) ts dev = (.fault e, dev1)) :
    work_loop D ts n (fuel + 1) dev total =
      (.threw e, dev1, [⟨(total * ts) % SIZE_MOD,
        (((to_size_t n + SIZE_MOD - total) % SIZE_MOD) * ts) % SIZE_MOD, .fault e⟩]) := by
  rw [work_loop, if_pos h]
  simp only [hr]

theorem work_loop_zero (D : simple_usrp σ ε) (ts : Nat) (n : Int) (fuel : Nat) (dev : σ)
    (total : Nat) (h : total < to_size_t n) (r : Nat) (dev1 : σ)
    (hr : D.recv ((total * ts) % SIZE_MOD)
      ((((to_size_t n + SIZE_MOD - total) % SIZE_MOD) * ts) % SIZE_MOD) ts dev = (.items r, dev1))
    (h0 : r % SIZE_MOD = 0) :
    work_loop D ts n (fuel + 1) dev total =
      (.returned (to_int ((total + 0) % SIZE_MOD)), dev1, [⟨(total * ts) % SIZE_MOD,
        (((to_size_t n + SIZE_MOD - total) % SIZE_MOD) * ts) % SIZE_MOD, .items 0⟩]) := by
  rw [work_loop, if_pos h]
  simp only [hr, h0, if_true]

theorem work_loop_more (D : simple_usrp σ ε) (ts : Nat) (n : Int) (fuel : Nat) (dev : σ)
    (total : Nat) (h : total < to_size_t n) (r : Nat) (dev1 : σ)
    (hr : D.recv ((total * ts) % SIZE_MOD)
      ((((to_size_t n + SIZE_MOD - total) % SIZE_MOD) * ts) % SIZE_MOD) ts dev = (.items r, dev1))
    (h0 : r % SIZE_MOD ≠ 0) :
    work_loop D ts n (fuel + 1) dev total =
      ((work_loop D ts n fuel dev1 ((total + r % SIZE_MOD) % SIZE_MOD)).1,
       (work_loop D ts n fuel dev1 ((total + r % SIZE_MOD) % SIZE_MOD)).2.1,
       ⟨(total * ts) % SIZE_MOD,
        (((to_size_t n + SIZE_MOD - total) % SIZE_MOD) * ts) % SIZE_MOD, .items (r % SIZE_MOD)⟩ ::
       (work_loop D ts n fuel dev1 ((total + r % SIZE_MOD) % SIZE_MOD)).2.2) := by
  rw [work_loop, if_pos h]
  simp only [hr, h0, if_false]

/-- One iteration of the loop: `recv` throws, or reports zero items, or
reports some and the loop goes on. -/
theorem work_loop_cases (D : simple_usrp σ ε) (ts : Nat) (n : Int) (fuel : Nat) (dev : σ)
    (total : Nat) (h : total < to_size_t n) :
    (∃ e dev1, D.recv (offset_at ts total) (nbytes_at ts n total) ts dev = (.fault e, dev1) ∧
      work_loop D ts n (fuel + 1) dev total =
        (.threw e, dev1, [⟨offset_at ts total, nbytes_at ts n total, .fault e⟩])) ∨
    (∃ r dev1, D.recv (offset_at ts total) (nbytes_at ts n total) ts dev = (.items r, dev1) ∧
      r % SIZE_MOD = 0 ∧
      work_loop D ts n (fuel + 1) dev total =
        (.returned (to_int ((total + 0) % SIZE_MOD)), dev1,
          [⟨offset_at ts total, nbytes_at ts n total, .items 0⟩])) ∨
    (∃ r dev1, D.recv (offset_at ts total) (nbytes_at ts n total) ts dev = (.items r, dev1) ∧
      r % SIZE_MOD ≠ 0 ∧
      work_loop D ts n (fuel + 1) dev total =
        ((work_loop D ts n fuel dev1 ((total + r % SIZE_MOD) % SIZE_MOD)).1,
         (work_loop D ts n fuel dev1 ((total + r % SIZE_MOD) % SIZE_MOD)).2.1,
         ⟨offset_at ts total, nbytes_at ts n total, .items (r % SIZE_MOD)⟩ ::
         (work_loop D ts n fuel dev1 ((total + r % SIZE_MOD) % SIZE_MOD)).2.2)) := by
  rcases hr : D.recv (offset_at ts total) (nbytes_at ts n total) ts dev with ⟨res, dev1⟩
  cases res with
  | fault e =>
    exact Or.inl ⟨e, dev1, rfl, work_loop_fault D ts n fuel dev total h e dev1 hr⟩
  | items r =>
    by_cases h0 : r % SIZE_MOD = 0
    · exact Or.inr (Or.inl ⟨r, dev1, rfl, h0, work_loop_zero D ts n fuel dev total h r dev1 hr h0⟩)
    · exact Or.inr (Or.inr ⟨r, dev1, rfl, h0, work_loop_more D ts n fuel dev total h r dev1 hr h0⟩)

theorem mem_dropLast_cons {α : Type} (a c : α) (l : List α) (h : c ∈ (a :: l).dropLast) :
    c = a ∨ c ∈ l.dropLast := by
  cases l with
  | nil => simp at h
  | cons b l => simpa using h

theorem items_sum_cons (c : recv_call ε) (l : List (recv_call ε)) :
    items_sum (c :: l) = c.count + items_sum l := by
  simp [items_sum]

/-- What holds of the loop on every device: every call but the last reported
at least one item; a call that threw makes the loop throw the same error; a
call that reported zero items makes the loop return; a returned value is the
`int` conversion of the accumulator; and the loop throws only the error of its
last call. -/
theorem work_loop_any (D : simple_usrp σ ε) (ts : Nat) (n : Int) (fuel : Nat) :
    ∀ (dev : σ) (total : Nat), total < SIZE_MOD →
      (∀ c ∈ (work_loop D ts n fuel dev total).2.2.dropLast,
          ∃ r, c.result = .items r ∧ 1 ≤ r) ∧
      (∀ c ∈ (work_loop D ts n fuel dev total).2.2, ∀ e, c.result = .fault e →
          (work_loop D ts n fuel dev total).1 = .threw e) ∧
      (∀ c ∈ (work_loop D ts n fuel dev total).2.2, c.result = .items 0 →
          ∃ v, (work_loop D ts n fuel dev total).1 = .returned v) ∧
      (∀ v, (work_loop D ts n fuel dev total).1 = .returned v →
          v = to_int ((total + items_sum (work_loop D ts n fuel dev total).2.2) % SIZE_MOD)) ∧
      (∀ e, (work_loop D ts n fuel dev total).1 = .threw e →
          ∃ c, (work_loop D ts n fuel dev total).2.2.getLast? = some c ∧ c.result = .fault e) := by
  induction fuel with
  | zero =>
    intro dev total ht
    by_cases h : total < to_size_t n
    · simp [work_loop, h]
    · rw [work_loop_done D ts n 0 dev total h]
      simp [items_sum, Nat.mod_eq_of_lt ht]
  | succ fuel ih =>
    intro dev total ht
    by_cases h : total < to_size_t n
    · rcases work_loop_cases D ts n fuel dev total h with
        ⟨e, dev1, _, hw⟩ | ⟨r, dev1, _, _, hw⟩ | ⟨r, dev1, _, h0, hw⟩
      · rw [hw]; simp
      · rw [hw]; simp [items_sum, recv_call.count]
      · have hlt : (total + r % SIZE_MOD) % SIZE_MOD < SIZE_MOD :=
          Nat.mod_lt _ (by unfold SIZE_MOD; norm_num)
        obtain ⟨ia, ib, ic, id, ie⟩ := ih dev1 _ hlt
        rw [hw]
        refine ⟨?_, ?_, ?_, ?_, ?_⟩
        · intro c hc
          rcases mem_dropLast_cons _ _ _ hc with hc | hc
          · subst hc; exact ⟨_, rfl, by omega⟩
          · exact ia c hc
        · intro c hc e he
          rcases List.mem_cons.mp hc with hc | hc
          · subst hc; simp at he
          · exact ib c hc e he
        · intro c hc he
          rcases List.mem_cons.mp hc with hc | hc
          · subst hc; simp at he; exact absurd he h0
          · exact ic c hc he
        · intro v hv
          have := id v hv
          rw [this, items_sum_cons]
          simp only [recv_call.count]
          congr 1
          unfold SIZE_MOD
          omega
        · intro e he
          obtain ⟨c, hc, hce⟩ := ie e he
          refine ⟨c, ?_, hce⟩
          simp only
          rw [List.getLast?_cons, hc]; rfl
    · rw [work_loop_done D ts n (fuel + 1) dev total h]
      simp [items_sum, Nat.mod_eq_of_lt ht]

theorem requested_at_le (ts : Nat) (n : Int) (total : Nat) (h : total ≤ to_size_t n) :
    nbytes_at ts n total / ts ≤ to_size_t n - total := by
  unfold nbytes_at
  rw [remaining_eq _ _ (to_size_t_lt n) h]
  exact bytes_div_le _ _

theorem requested_at_eq (ts : Nat) (n : Int) (total : Nat) (h : total ≤ to_size_t n)
    (hts : 1 ≤ ts) (hfit : to_size_t n * ts < SIZE_MOD) :
    nbytes_at ts n total = (to_size_t n - total) * ts ∧
      nbytes_at ts n total / ts = to_size_t n - total := by
  unfold nbytes_at
  rw [remaining_eq _ _ (to_size_t_lt n) h]
  have hle : (to_size_t n - total) * ts ≤ to_size_t n * ts :=
    Nat.mul_le_mul_right _ (Nat.sub_le _ _)
  have hlt : (to_size_t n - total) * ts < SIZE_MOD := lt_of_le_of_lt hle hfit
  exact ⟨Nat.mod_eq_of_lt hlt, bytes_div_eq _ _ hts hlt⟩

/-- What holds of the loop on a device that never reports more than was
requested, once the loop is given as many iterations as items are missing. -/
theorem work_loop_honest (D : simple_usrp σ ε) (ts : Nat) (n : Int)
    (hD : reports_at_most_requested D ts) (fuel : Nat) :
    ∀ (dev : σ) (total : Nat), total ≤ to_size_t n → to_size_t n - total ≤ fuel →
      (work_loop D ts n fuel dev total).1 ≠ .running ∧
      (work_loop D ts n fuel dev total).2.2.length ≤ to_size_t n - total ∧
      total + items_sum (work_loop D ts n fuel dev total).2.2 ≤ to_size_t n ∧
      (∀ v, (work_loop D ts n fuel dev total).1 = .returned v →
        v = to_int (total + items_sum (work_loop D ts n fuel dev total).2.2)) ∧
      (∀ v, (work_loop D ts n fuel dev total).1 = .returned v →
        total + items_sum (work_loop D ts n fuel dev total).2.2 < to_size_t n →
        ∃ c, (work_loop D ts n fuel dev total).2.2.getLast? = some c ∧
          c.result = .items 0) := by
  have hN := to_size_t_lt n
  induction fuel with
  | zero =>
    intro dev total ht hf
    have h : ¬ total < to_size_t n := by omega
    rw [work_loop_done D ts n 0 dev total h]
    simp [items_sum]
    omega
  | succ fuel ih =>
    intro dev total ht hf
    by_cases h : total < to_size_t n
    · rcases work_loop_cases D ts n fuel dev total h with
        ⟨e, dev1, _, hw⟩ | ⟨r, dev1, _, _, hw⟩ | ⟨r, dev1, hr, h0, hw⟩
      · rw [hw]; simp [items_sum, recv_call.count]; omega
      · rw [hw]
        have : total % SIZE_MOD = total := Nat.mod_eq_of_lt (by omega)
        simp [items_sum, recv_call.count, this]; omega
      · have hr1 := hD _ _ _ _ _ hr
        have hr2 := requested_at_le ts n total ht
        have hrM : r % SIZE_MOD = r := Nat.mod_eq_of_lt (by omega)
        rw [hrM] at hw h0
        have htot : (total + r) % SIZE_MOD = total + r := Nat.mod_eq_of_lt (by omega)
        rw [htot] at hw
        obtain ⟨ia, ib, ic, id, ie⟩ := ih dev1 (total + r) (by omega) (by omega)
        rw [hw]
        simp only [items_sum_cons, recv_call.count, List.length_cons]
        refine ⟨ia, by omega, by omega, ?_, ?_⟩
        · intro v hv
          rw [id v hv]; congr 1; omega
        · intro v hv hlt
          obtain ⟨c, hc, hc0⟩ := ie v hv (by omega)
          refine ⟨c, ?_, hc0⟩
          rw [List.getLast?_cons, hc]; rfl
    · rw [work_loop_done D ts n (fuel + 1) dev total h]
      simp [items_sum]
      omega

/-- On a device that, besides, never reports zero items to a request for at
least one item, the loop returns only when the buffer is full. -/
theorem work_loop_full (D : simple_usrp σ ε) (ts : Nat) (n : Int)
    (hD : reports_at_most_requested D ts) (hZ : never_zero_when_requested D ts)
    (hts : 1 ≤ ts) (hfit : to_size_t n * ts < SIZE_MOD) (fuel : Nat) :
    ∀ (dev : σ) (total : Nat), total ≤ to_size_t n →
      ∀ v, (work_loop D ts n fuel dev total).1 = .returned v →
        total + items_sum (work_loop D ts n fuel dev total).2.2 = to_size_t n := by
  have hN := to_size_t_lt n
  induction fuel with
  | zero =>
    intro dev total ht v hv
    by_cases h : total < to_size_t n
    · simp [work_loop, h] at hv
    · rw [work_loop_done D ts n 0 dev total h]
      simp [items_sum]; omega
  | succ fuel ih =>
    intro dev total ht v hv
    by_cases h : total < to_size_t n
    · rcases work_loop_cases D ts n fuel dev total h with
        ⟨e, dev1, _, hw⟩ | ⟨r, dev1, hr, hr0, hw⟩ | ⟨r, dev1, hr, h0, hw⟩
      · rw [hw] at hv; simp at hv
      · exfalso
        have hr1 := hD _ _ _ _ _ hr
        have hr2 := requested_at_le ts n total ht
        have hrM : r % SIZE_MOD = r := Nat.mod_eq_of_lt (by omega)
        have hreq := (requested_at_eq ts n total ht hts hfit).2
        rw [hrM] at hr0
        subst hr0
        exact hZ _ _ _ _ (by omega) hr
      · have hr1 := hD _ _ _ _ _ hr
        have hr2 := requested_at_le ts n total ht
        have hrM : r % SIZE_MOD = r := Nat.mod_eq_of_lt (by omega)
        rw [hrM] at hw h0
        have htot : (total + r) % SIZE_MOD = total + r := Nat.mod_eq_of_lt (by omega)
        rw [htot] at hw
        rw [hw] at hv
        have := ih dev1 (total + r) (by omega) v hv
        rw [hw]
        simp only [items_sum_cons, recv_call.count]
        omega
    · rw [work_loop_done D ts n (fuel + 1) dev total h]
      simp [items_sum]; omega

theorem ceil_div_succ (d k : Nat) (hk : 1 ≤ k) (hd : 1 ≤ d) :
    (d + k - 1) / k = (d - 1) / k + 1 := by
  have : d + k - 1 = d - 1 + k := by omega
  rw [this, Nat.add_div_right _ (by omega)]

theorem work_loop_chunks (D : simple_usrp σ ε) (ts k : Nat) (n : Int)
    (hD : reports_min_requested D ts k) (hk : 1 ≤ k)
    (hts : 1 ≤ ts) (hfit : to_size_t n * ts < SIZE_MOD) (fuel : Nat) :
    ∀ (dev : σ) (total : Nat), total ≤ to_size_t n →
      (to_size_t n - total + k - 1) / k ≤ fuel →
      (work_loop D ts n fuel dev total).1 = .returned (to_int (to_size_t n)) ∧
      (work_loop D ts n fuel dev total).2.2 =
        (List.range ((to_size_t n - total + k - 1) / k)).map
          (chunk_call ε ts (to_size_t n) k total) := by
  have hN := to_size_t_lt n
  induction fuel with
  | zero =>
    intro dev total ht hf
    have h : ¬ total < to_size_t n := by
      intro hlt
      rw [ceil_div_succ _ k hk (by omega)] at hf
      exact Nat.not_succ_le_zero _ hf
    have hd : to_size_t n - total = 0 := by omega
    have hc : (to_size_t n - total + k - 1) / k = 0 := by
      rw [hd]; exact Nat.div_eq_of_lt (by omega)
    rw [work_loop_done D ts n 0 dev total h, hc]
    have : total = to_size_t n := by omega
    simp [this]
  | succ fuel ih =>
    intro dev total ht hf
    by_cases h : total < to_size_t n
    · have hreq := requested_at_eq ts n total ht hts hfit
      have hres := hD (offset_at ts total) (nbytes_at ts n total) dev
      rw [hreq.2] at hres
      have hoff : offset_at ts total = total * ts := by
        unfold offset_at
        apply Nat.mod_eq_of_lt
        exact lt_of_le_of_lt (Nat.mul_le_mul_right _ ht) hfit
      have hc := ceil_div_succ (to_size_t n - total) k hk (by omega)
      rcases work_loop_cases D ts n fuel dev total h with
        ⟨e, dev1, hr, _⟩ | ⟨r, dev1, hr, hr0, _⟩ | ⟨r, dev1, hr, h0, hw⟩
      · rw [hr] at hres; simp at hres
      · exfalso
        rw [hr] at hres
        simp only [recv_result.items.injEq] at hres
        have : r % SIZE_MOD = r := Nat.mod_eq_of_lt (by omega)
        omega
      · rw [hr] at hres
        simp only [recv_result.items.injEq] at hres
        have hrM : r % SIZE_MOD = r := Nat.mod_eq_of_lt (by omega)
        rw [hrM] at hw
        have htot : (total + r) % SIZE_MOD = total + r := Nat.mod_eq_of_lt (by omega)
        rw [htot] at hw
        have hc1 : (to_size_t n - (total + r) + k - 1) / k = (to_size_t n - total - 1) / k := by
          by_cases hle : to_size_t n - total ≤ k
          · have h1 : to_size_t n - (total + r) + k - 1 = k - 1 := by omega
            rw [h1, Nat.div_eq_of_lt (by omega), Nat.div_eq_of_lt (by omega)]
          · have h1 : to_size_t n - (total + r) + k - 1 = to_size_t n - total - 1 := by omega
            rw [h1]
        obtain ⟨ia, ib⟩ := ih dev1 (total + r) (by omega) (by rw [hc1]; rw [hc] at hf; exact Nat.le_of_succ_le_succ hf)
        rw [hw, hc]
        refine ⟨ia, ?_⟩
        simp only
        rw [ib, hc1, List.range_succ_eq_map, List.map_cons, List.map_map]
        congr 1
        · simp [chunk_call, hoff, hreq.1, hres]
        · by_cases hle : to_size_t n - total ≤ k
          · rw [Nat.div_eq_of_lt (by omega)]; simp
          · have hrk : r = k := by omega
            apply List.map_congr_left
            intro i _
            simp only [chunk_call, Function.comp, hrk]
            have : total + k + i * k = total + (i + 1) * k := by ring
            rw [this]
    · have hd : to_size_t n - total = 0 := by omega
      have hc : (to_size_t n - total + k - 1) / k = 0 := by
        rw [hd]; exact Nat.div_eq_of_lt (by omega)
      rw [work_loop_done D ts n (fuel + 1) dev total h, hc]
      have : total = to_size_t n := by omega
      simp [this]

/-! ## From the loop to `work` -/

theorem recv_calls_map (l : List (recv_call ε)) : recv_calls (l.map Effect.recv) = l := by
  induction l with
  | nil => rfl
  | cons c l ih => simp [recv_calls, ih]

theorem stream_cmds_map (l : List (recv_call ε)) : stream_cmds (l.map Effect.recv) = [] := by
  induction l with
  | nil => rfl
  | cons c l ih => simp [stream_cmds, ih]

theorem completed_cmds_map (l : List (recv_call ε)) :
    completed_cmds (l.map Effect.recv) = [] := by
  induction l with
  | nil => rfl
  | cons c l ih => simp [completed_cmds, ih]

theorem stream_cmds_append (a b : List (Effect ε)) :
    stream_cmds (a ++ b) = stream_cmds a ++ stream_cmds b := by
  induction a with
  | nil => rfl
  | cons x a ih => cases x <;> simp [stream_cmds, ih]

theorem completed_cmds_append (a b : List (Effect ε)) :
    completed_cmds (a ++ b) = completed_cmds a ++ completed_cmds b := by
  induction a with
  | nil => rfl
  | cons x a ih =>
    cases x with
    | issue_stream_cmd m t => cases t <;> simp [completed_cmds, ih]
    | set_is_streaming b => simp [completed_cmds, ih]
    | recv c => simp [completed_cmds, ih]

/-- When the start-continuous command of `work` throws, `work` throws that
error, having issued that command and nothing else, and the flag stays
false. -/
theorem work_of_start_error (D : simple_usrp σ ε) (fuel : Nat) (self : uhd_simple_source σ)
    (n : Int) (e : ε) (h : start_error D self = some e) :
    (work D fuel self n).1 = .threw e ∧
    (work D fuel self n).2.2 = [.issue_stream_cmd .STREAM_MODE_START_CONTINUOUS (some e)] ∧
    (work D fuel self n).2.1._is_streaming = false := by
  cases hf : self._is_streaming
  · rcases hcmd : D.issue_stream_cmd .STREAM_MODE_START_CONTINUOUS self._dev with ⟨o, dev1⟩
    simp only [start_error, hf, Bool.false_eq_true, if_false, hcmd] at h
    subst h
    simp [work, set_streaming, hf, hcmd]
  · simp [start_error, hf] at h

theorem work_outcome (D : simple_usrp σ ε) (fuel : Nat) (self : uhd_simple_source σ)
    (n : Int) (h : start_error D self = none) :
    (work D fuel self n).1 = (work_loop D self._type_size n fuel (work_dev D self) 0).1 := by
  cases hf : self._is_streaming
  · rcases hcmd : D.issue_stream_cmd .STREAM_MODE_START_CONTINUOUS self._dev with ⟨o, dev1⟩
    simp only [start_error, hf, Bool.false_eq_true, if_false, hcmd] at h
    subst h
    simp [work, work_dev, set_streaming, hf, hcmd]
  · simp [work, work_dev, hf]

theorem work_effects (D : simple_usrp σ ε) (fuel : Nat) (self : uhd_simple_source σ)
    (n : Int) (h : start_error D self = none) :
    (work D fuel self n).2.2 = work_start_effects ε self._is_streaming ++
      (work_loop D self._type_size n fuel (work_dev D self) 0).2.2.map Effect.recv := by
  cases hf : self._is_streaming
  · rcases hcmd : D.issue_stream_cmd .STREAM_MODE_START_CONTINUOUS self._dev with ⟨o, dev1⟩
    simp only [start_error, hf, Bool.false_eq_true, if_false, hcmd] at h
    subst h
    simp [work, work_dev, work_start_effects, set_streaming, hf, hcmd]
  · simp [work, work_dev, work_start_effects, hf]

theorem work_recv_calls (D : simple_usrp σ ε) (fuel : Nat) (self : uhd_simple_source σ)
    (n : Int) (h : start_error D self = none) :
    recv_calls (work D fuel self n).2.2 =
      (work_loop D self._type_size n fuel (work_dev D self) 0).2.2 := by
  rw [work_effects D fuel self n h]
  cases self._is_streaming <;> simp [work_start_effects, recv_calls, recv_calls_map]

theorem work_flag (D : simple_usrp σ ε) (fuel : Nat) (self : uhd_simple_source σ)
    (n : Int) (h : start_error D self = none) :
    (work D fuel self n).2.1._is_streaming = true := by
  cases hf : self._is_streaming
  · rcases hcmd : D.issue_stream_cmd .STREAM_MODE_START_CONTINUOUS self._dev with ⟨o, dev1⟩
    simp only [start_error, hf, Bool.false_eq_true, if_false, hcmd] at h
    subst h
    simp [work, set_streaming, hf, hcmd]
  · simp [work, hf]

/-! ## The claims -/

/-- C1. On a device whose `recv` never reports more items than were
requested, `work(max_items)` with `0 ≤ max_items` (an `int`, so below `2^31`)
finishes within `max_items` iterations of its loop, and when it returns
`items_produced` then `0 ≤ items_produced ≤ max_items`. -/
theorem work_returns_within_request (D : simple_usrp σ ε) (self : uhd_simple_source σ)
    (max_items fuel : Nat) (hD : reports_at_most_requested D self._type_size)
    (hm : max_items < 2 ^ 31) (hf : max_items ≤ fuel) :
    (work D fuel self (max_items : Int)).1 ≠ .running ∧
    ∀ v, (work D fuel self (max_items : Int)).1 = .returned v →
      0 ≤ v ∧ v ≤ (max_items : Int) := by
  cases hs : start_error D self with
  | some e =>
    rw [(work_of_start_error D fuel self _ e hs).1]
    simp
  | none =>
    have hN : to_size_t (max_items : Int) = max_items :=
      to_size_t_natCast _ (by unfold SIZE_MOD; omega)
    obtain ⟨ha, _, hc, hd, _⟩ := work_loop_honest D self._type_size (max_items : Int) hD fuel
      (work_dev D self) 0 (Nat.zero_le _) (by rw [hN]; omega)
    rw [work_outcome D fuel self _ hs]
    refine ⟨ha, ?_⟩
    intro v hv
    have hv1 := hd v hv
    rw [hN] at hc
    rw [to_int_of_lt _ (by omega)] at hv1
    omega

/-- Witness of C1: a device with 300 items to give, asked for 1000. -/
theorem work_returns_within_request_witness :
    reports_at_most_requested (budget_device 300) 8 ∧ 1000 < 2 ^ 31 ∧ 1000 ≤ 1000 ∧
    (work (budget_device 300) 1000 ⟨300, 8, false⟩ ((1000 : Nat) : Int)).1 ≠ .running ∧
    ∀ v, (work (budget_device 300) 1000 ⟨300, 8, false⟩ ((1000 : Nat) : Int)).1 = .returned v →
      0 ≤ v ∧ v ≤ ((1000 : Nat) : Int) :=
  have h : reports_at_most_requested (budget_device 300) 8 := by
    intro offset nbytes dev r dev1 hr
    simp only [budget_device, Prod.mk.injEq, recv_result.items.injEq] at hr
    omega
  ⟨h, by norm_num, le_refl _,
    work_returns_within_request (budget_device 300) ⟨300, 8, false⟩ 1000 1000 h
      (by norm_num) (le_refl _)⟩

/-- C2. A `work` that begins with `_is_streaming` false issues exactly one
stream command, a start-continuous one, and issues it before every call of
`recv`: when the command returns, the effects of `work` are that command, the
assignment of the flag, and then calls of `recv` only; when the command
throws, `work` throws that error and the command is its only effect. -/
theorem work_starts_stream_once (D : simple_usrp σ ε) (fuel : Nat)
    (self : uhd_simple_source σ) (noutput_items : Int) (h : self._is_streaming = false) :
    stream_cmds (work D fuel self noutput_items).2.2 = [.STREAM_MODE_START_CONTINUOUS] ∧
    (start_error D self = none →
      (work D fuel self noutput_items).2.2 =
        .issue_stream_cmd .STREAM_MODE_START_CONTINUOUS none :: .set_is_streaming true ::
          (recv_calls (work D fuel self noutput_items).2.2).map Effect.recv) ∧
    (∀ e, start_error D self = some e →
      (work D fuel self noutput_items).1 = .threw e ∧
      (work D fuel self noutput_items).2.2 =
        [.issue_stream_cmd .STREAM_MODE_START_CONTINUOUS (some e)]) := by
  refine ⟨?_, ?_, ?_⟩
  · cases hs : start_error D self with
    | some e =>
      rw [(work_of_start_error D fuel self _ e hs).2.1]
      rfl
    | none =>
      rw [work_effects D fuel self _ hs, h]
      simp [work_start_effects, stream_cmds, stream_cmds_map]
  · intro hs
    rw [work_recv_calls D fuel self _ hs, work_effects D fuel self _ hs, h]
    simp [work_start_effects]
  · intro e hs
    exact ⟨(work_of_start_error D fuel self _ e hs).1,
      (work_of_start_error D fuel self _ e hs).2.1⟩

/-- Witness of C2: the first `work` after construction, on a device that
starts and on one that refuses to start. -/
theorem work_starts_stream_once_witness :
    (⟨(), 8, false⟩ : uhd_simple_source Unit)._is_streaming = false ∧
    stream_cmds (work (chunk_device 64) 4 ⟨(), 8, false⟩ 200).2.2 =
      [.STREAM_MODE_START_CONTINUOUS] ∧
    (work (chunk_device 64) 4 ⟨(), 8, false⟩ 200).2.2 =
      .issue_stream_cmd .STREAM_MODE_START_CONTINUOUS none :: .set_is_streaming true ::
        (recv_calls (work (chunk_device 64) 4 ⟨(), 8, false⟩ 200).2.2).map Effect.recv ∧
    (work refusing_device 4 ⟨(), 8, false⟩ 200).1 = .threw "start refused" ∧
    (work refusing_device 4 ⟨(), 8, false⟩ 200).2.2 =
      [.issue_stream_cmd .STREAM_MODE_START_CONTINUOUS (some "start refused")] :=
  ⟨rfl, (work_starts_stream_once (chunk_device 64) 4 ⟨(), 8, false⟩ 200 rfl).1,
    (work_starts_stream_once (chunk_device 64) 4 ⟨(), 8, false⟩ 200 rfl).2.1 rfl,
    (work_starts_stream_once refusing_device 4 ⟨(), 8, false⟩ 200 rfl).2.2
      "start refused" rfl⟩

/-- C3, as stated, fails: on a device that reports 5 items, then `2^64 - 3`,
then zero, `work(10)` returns 2, which is not the sum of the counts of the
calls before the one that reported zero. -/
theorem work_zero_read_sum_counterexample :
    recv_calls (work (script_device [.items 5, .items (2 ^ 64 - 3), .items 0]) 3
        ⟨[.items 5, .items (2 ^ 64 - 3), .items 0], 1, true⟩ 10).2.2 =
      [⟨0, 10, .items 5⟩, ⟨5, 5, .items (2 ^ 64 - 3)⟩] ++ [⟨2, 8, .items 0⟩] ∧
    (work (script_device [.items 5, .items (2 ^ 64 - 3), .items 0]) 3
        ⟨[.items 5, .items (2 ^ 64 - 3), .items 0], 1, true⟩ 10).1 = .returned 2 ∧
    ((items_sum ([⟨0, 10, .items 5⟩, ⟨5, 5, .items (2 ^ 64 - 3)⟩] :
        List (recv_call String)) : Nat) : Int) ≠ 2 := by
  refine ⟨by decide, by decide, by decide⟩

/-- C3, amended. For every `noutput_items` and every device, a call of `recv`
that reports zero items is the last call of the `work`; `work` then returns
the sum of the counts of the calls before it, reduced modulo `2^64` and
converted to `int`, which is that sum itself when the sum is below `2^31`. -/
theorem work_zero_read_is_last (D : simple_usrp σ ε) (fuel : Nat)
    (self : uhd_simple_source σ) (noutput_items : Int)
    (pre post : List (recv_call ε)) (c : recv_call ε)
    (hcalls : recv_calls (work D fuel self noutput_items).2.2 = pre ++ c :: post)
    (hc : c.result = .items 0) :
    post = [] ∧
    (work D fuel self noutput_items).1 = .returned (to_int (items_sum pre % SIZE_MOD)) ∧
    (items_sum pre < 2 ^ 31 →
      (work D fuel self noutput_items).1 = .returned (items_sum pre : Nat)) := by
  have hs : start_error D self = none := by
    cases hs : start_error D self with
    | none => rfl
    | some e =>
      rw [(work_of_start_error D fuel self _ e hs).2.1] at hcalls
      simp [recv_calls] at hcalls
  rw [work_recv_calls D fuel self _ hs] at hcalls
  rw [work_outcome D fuel self _ hs]
  obtain ⟨ha, _, hz, hd, _⟩ := work_loop_any D self._type_size noutput_items fuel
    (work_dev D self) 0 (by unfold SIZE_MOD; norm_num)
  rw [hcalls] at ha hz hd
  have hpost : post = [] := by
    by_contra hne
    have hmem : c ∈ (pre ++ c :: post).dropLast := by
      rw [List.dropLast_append_of_ne_nil _ (by simp), List.dropLast_cons_of_ne_nil hne]
      simp
    obtain ⟨r, hr, hr1⟩ := ha c hmem
    rw [hc] at hr
    simp only [recv_result.items.injEq] at hr
    omega
  obtain ⟨v, hv⟩ := hz c (by simp) hc
  have hv1 := hd v hv
  have hsum : items_sum (pre ++ c :: post) = items_sum pre := by
    subst hpost
    simp [items_sum, recv_call.count, hc]
  rw [hsum, Nat.zero_add] at hv1
  subst hv1
  refine ⟨hpost, hv, ?_⟩
  intro hlt
  rw [hv, Nat.mod_eq_of_lt (by unfold SIZE_MOD; omega), to_int_of_lt _ hlt]

/-- Witness of C3: 1000 items asked from a device that gives 300 and then
none; two calls of `recv`, and 300 returned. -/
theorem work_zero_read_is_last_witness :
    recv_calls (work (budget_device 300) 5 ⟨300, 8, true⟩ 1000).2.2 =
      [⟨0, 8000, .items 300⟩] ++ ⟨2400, 5600, .items 0⟩ :: [] ∧
    (⟨2400, 5600, .items 0⟩ : recv_call String).result = .items 0 ∧
    ([] : List (recv_call String)) = [] ∧
    (work (budget_device 300) 5 ⟨300, 8, true⟩ 1000).1 =
      .returned (to_int (items_sum ([⟨0, 8000, .items 300⟩] : List (recv_call String))
        % SIZE_MOD)) ∧
    (items_sum ([⟨0, 8000, .items 300⟩] : List (recv_call String)) < 2 ^ 31 →
      (work (budget_device 300) 5 ⟨300, 8, true⟩ 1000).1 =
        .returned (items_sum ([⟨0, 8000, .items 300⟩] : List (recv_call String)) : Nat)) :=
  ⟨by decide, rfl,
    work_zero_read_is_last (budget_device 300) 5 ⟨300, 8, true⟩ 1000
      [⟨0, 8000, .items 300⟩] [] ⟨2400, 5600, .items 0⟩ (by decide) rfl⟩

/-- C4. On a device whose `recv` always reports `min(requested, k)` items,
`k ≥ 1`, `work(max_items)` with `0 ≤ max_items` (an `int`), the items having a
positive size and the output buffer of `max_items` items fitting in the
address space, and the stream being started without an error, makes exactly `ceil(max_items / k)` calls of `recv`; call `i`
(from zero) requests `max_items - i*k` items and gets `min(max_items - i*k, k)`;
and `work` returns `max_items`. -/
theorem work_fills_in_chunks (D : simple_usrp σ ε) (self : uhd_simple_source σ)
    (max_items k fuel : Nat) (hD : reports_min_requested D self._type_size k)
    (hk : 1 ≤ k) (hm : max_items < 2 ^ 31) (hts : 1 ≤ self._type_size)
    (hfit : max_items * self._type_size < SIZE_MOD)
    (hstart : start_error D self = none)
    (hf : (max_items + k - 1) / k ≤ fuel) :
    (work D fuel self (max_items : Int)).1 = .returned (max_items : Int) ∧
    (recv_calls (work D fuel self (max_items : Int)).2.2).length = (max_items + k - 1) / k ∧
    (recv_calls (work D fuel self (max_items : Int)).2.2).map (requested self._type_size) =
      (List.range ((max_items + k - 1) / k)).map (fun i => max_items - i * k) ∧
    (recv_calls (work D fuel self (max_items : Int)).2.2).map (fun c => c.result) =
      (List.range ((max_items + k - 1) / k)).map
        (fun i => recv_result.items (min (max_items - i * k) k)) := by
  have hN : to_size_t (max_items : Int) = max_items :=
    to_size_t_natCast _ (by unfold SIZE_MOD; omega)
  obtain ⟨ha, hb⟩ := work_loop_chunks D self._type_size k (max_items : Int) hD hk hts
    (by rw [hN]; exact hfit) fuel (work_dev D self) 0 (Nat.zero_le _)
    (by rw [hN]; simpa using hf)
  rw [hN] at ha hb
  simp only [Nat.sub_zero] at hb
  rw [work_outcome D fuel self _ hstart, work_recv_calls D fuel self _ hstart, ha, hb,
    to_int_of_lt _ hm]
  refine ⟨rfl, by simp, ?_, ?_⟩
  · rw [List.map_map]
    apply List.map_congr_left
    intro i _
    simp only [Function.comp, requested, chunk_call, Nat.zero_add]
    exact Nat.mul_div_cancel _ hts
  · rw [List.map_map]
    apply List.map_congr_left
    intro i _
    simp [Function.comp, chunk_call]

/-- Witness of C4: chunks of 64, 200 items asked: four calls of `recv`,
requesting 200, 136, 72, 8 items and getting 64, 64, 64, 8; 200 returned. -/
theorem work_fills_in_chunks_witness :
    reports_min_requested (chunk_device 64) 8 64 ∧
    start_error (chunk_device 64) ⟨(), 8, false⟩ = none ∧
    (work (chunk_device 64) 4 ⟨(), 8, false⟩ ((200 : Nat) : Int)).1 =
      .returned ((200 : Nat) : Int) ∧
    (recv_calls (work (chunk_device 64) 4 ⟨(), 8, false⟩ ((200 : Nat) : Int)).2.2).length
      = 4 ∧
    (recv_calls (work (chunk_device 64) 4 ⟨(), 8, false⟩ ((200 : Nat) : Int)).2.2).map
      (requested 8) = [200, 136, 72, 8] ∧
    (recv_calls (work (chunk_device 64) 4 ⟨(), 8, false⟩ ((200 : Nat) : Int)).2.2).map
      (fun c => c.result) = [.items 64, .items 64, .items 64, .items 8] :=
  have hD : reports_min_requested (chunk_device 64) 8 64 := fun _ _ _ => rfl
  have h := work_fills_in_chunks (chunk_device 64) ⟨(), 8, false⟩ 200 64 4 hD
    (by decide) (by decide) (by decide) (by decide) rfl (by decide)
  ⟨hD, rfl, h.1, h.2.1.trans (by decide), h.2.2.1.trans (by decide),
    h.2.2.2.trans (by decide)⟩

/-- C5. On a device whose `recv` never reports more items than were
requested, `work(max_items)` with `0 ≤ max_items` (an `int`) finishes within
`max_items` iterations; it returns fewer than `max_items` only if its last
call of `recv` reported zero items; and if the device never reports zero
items to a request for at least one item (the items having a positive size and
the output buffer fitting in the address space, so that a request is empty
only when the buffer is full), it returns exactly `max_items`. -/
theorem work_short_only_on_zero (D : simple_usrp σ ε) (self : uhd_simple_source σ)
    (max_items fuel : Nat) (hD : reports_at_most_requested D self._type_size)
    (hm : max_items < 2 ^ 31) (hf : max_items ≤ fuel) :
    (work D fuel self (max_items : Int)).1 ≠ .running ∧
    (∀ v, (work D fuel self (max_items : Int)).1 = .returned v → v < (max_items : Int) →
      ∃ c, (recv_calls (work D fuel self (max_items : Int)).2.2).getLast? = some c ∧
        c.result = .items 0) ∧
    (never_zero_when_requested D self._type_size → 1 ≤ self._type_size →
      max_items * self._type_size < SIZE_MOD →
      ∀ v, (work D fuel self (max_items : Int)).1 = .returned v → v = (max_items : Int)) := by
  have hN : to_size_t (max_items : Int) = max_items :=
    to_size_t_natCast _ (by unfold SIZE_MOD; omega)
  cases hs : start_error D self with
  | some e =>
    rw [(work_of_start_error D fuel self _ e hs).1]
    simp
  | none =>
  obtain ⟨ha, _, hc, hd, he⟩ := work_loop_honest D self._type_size (max_items : Int) hD fuel
    (work_dev D self) 0 (Nat.zero_le _) (by rw [hN]; omega)
  rw [work_outcome D fuel self _ hs, work_recv_calls D fuel self _ hs]
  rw [hN] at hc he
  refine ⟨ha, ?_, ?_⟩
  · intro v hv hlt
    have hv1 := hd v hv
    rw [to_int_of_lt _ (by omega)] at hv1
    exact he v hv (by omega)
  · intro hZ hts hfit v hv
    have hv1 := hd v hv
    rw [to_int_of_lt _ (by omega)] at hv1
    have hfull := work_loop_full D self._type_size (max_items : Int) hD hZ hts
      (by rw [hN]; exact hfit) fuel (work_dev D self) 0 (Nat.zero_le _) v hv
    rw [hN] at hfull
    omega

/-- Witness of C5: a device with 300 items to give, asked for 1000, returns
300 after a last call of `recv` that reported zero items; a device that always
has data, asked for 200 items of 8 bytes, returns only 200. -/
theorem work_short_only_on_zero_witness :
    reports_at_most_requested (budget_device 300) 8 ∧ 1000 < 2 ^ 31 ∧ 1000 ≤ 1000 ∧
    (work (budget_device 300) 1000 ⟨300, 8, true⟩ ((1000 : Nat) : Int)).1 = .returned 300 ∧
    (∃ c, (recv_calls (work (budget_device 300) 1000 ⟨300, 8, true⟩
        ((1000 : Nat) : Int)).2.2).getLast? = some c ∧ c.result = .items 0) ∧
    reports_at_most_requested (chunk_device 64) 8 ∧
    never_zero_when_requested (chunk_device 64) 8 ∧
    (∀ v, (work (chunk_device 64) 200 ⟨(), 8, false⟩ ((200 : Nat) : Int)).1 = .returned v →
      v = ((200 : Nat) : Int)) :=
  have h : reports_at_most_requested (budget_device 300) 8 := by
    intro offset nbytes dev r dev1 hr
    simp only [budget_device, Prod.mk.injEq, recv_result.items.injEq] at hr
    omega
  have hv : (work (budget_device 300) 1000 ⟨300, 8, true⟩ ((1000 : Nat) : Int)).1
      = .returned 300 := by decide
  have hD : reports_at_most_requested (chunk_device 64) 8 := by
    intro offset nbytes dev r dev1 hr
    simp only [chunk_device, Prod.mk.injEq, recv_result.items.injEq] at hr
    omega
  have hZ : never_zero_when_requested (chunk_device 64) 8 := by
    intro offset nbytes dev dev1 hpos hr
    simp only [chunk_device, Prod.mk.injEq, recv_result.items.injEq] at hr
    omega
  ⟨h, by norm_num, le_refl _, hv,
    (work_short_only_on_zero (budget_device 300) ⟨300, 8, true⟩ 1000 1000 h
      (by norm_num) (le_refl _)).2.1 300 hv (by norm_num),
    hD, hZ,
    (work_short_only_on_zero (chunk_device 64) ⟨(), 8, false⟩ 200 200 hD
      (by norm_num) (le_refl _)).2.2 hZ (by decide) (by decide)⟩

/-- C7. On every device: a call of `recv` that throws makes `work` throw that
same error, with no item count, whatever the calls before it reported; a call
that reports zero items makes `work` return the count accumulated so far (the
`size_t` accumulator, converted to `int`). -/
theorem work_propagates_recv_error (D : simple_usrp σ ε) (fuel : Nat)
    (self : uhd_simple_source σ) (noutput_items : Int) :
    (∀ c ∈ recv_calls (work D fuel self noutput_items).2.2, ∀ e, c.result = .fault e →
      (work D fuel self noutput_items).1 = .threw e) ∧
    (∀ c ∈ recv_calls (work D fuel self noutput_items).2.2, c.result = .items 0 →
      (work D fuel self noutput_items).1 = .returned (to_int
        (items_sum (recv_calls (work D fuel self noutput_items).2.2) % SIZE_MOD))) := by
  cases hs : start_error D self with
  | some e =>
    rw [(work_of_start_error D fuel self _ e hs).2.1]
    simp [recv_calls]
  | none =>
  obtain ⟨_, hb, hz, hd, _⟩ := work_loop_any D self._type_size noutput_items fuel
    (work_dev D self) 0 (by unfold SIZE_MOD; norm_num)
  rw [work_outcome D fuel self _ hs, work_recv_calls D fuel self _ hs]
  refine ⟨hb, ?_⟩
  intro c hc h0
  obtain ⟨v, hv⟩ := hz c hc h0
  have hv1 := hd v hv
  rw [Nat.zero_add] at hv1
  rw [hv, hv1]

/-- Witness of C7: a device that gives 300 items and then fails; `work`
throws the error of the second call although the first one reported 300
items. A device that gives 300 items and then none makes `work` return 300. -/
theorem work_propagates_recv_error_witness :
    recv_calls (work (script_device [.items 300, .fault "disconnected"]) 5
        ⟨[.items 300, .fault "disconnected"], 8, true⟩ 1000).2.2 =
      [⟨0, 8000, .items 300⟩, ⟨2400, 5600, .fault "disconnected"⟩] ∧
    (work (script_device [.items 300, .fault "disconnected"]) 5
        ⟨[.items 300, .fault "disconnected"], 8, true⟩ 1000).1 = .threw "disconnected" ∧
    (work (script_device [.items 300, .items 0]) 5
        ⟨[.items 300, .items 0], 8, true⟩ 1000).1 = .returned 300 :=
  have hcalls : recv_calls (work (script_device [.items 300, .fault "disconnected"]) 5
        ⟨[.items 300, .fault "disconnected"], 8, true⟩ 1000).2.2 =
      [⟨0, 8000, .items 300⟩, ⟨2400, 5600, .fault "disconnected"⟩] := by decide
  ⟨hcalls,
    (work_propagates_recv_error (script_device [.items 300, .fault "disconnected"]) 5
      ⟨[.items 300, .fault "disconnected"], 8, true⟩ 1000).1
      ⟨2400, 5600, .fault "disconnected"⟩ (by rw [hcalls]; simp) "disconnected" rfl,
    by decide⟩

/-- C9. If `make` throws during construction, the constructor throws that
same error and has no effect at all before: no stream command was issued and
`_is_streaming` was not assigned. -/
theorem ctor_fails_before_streaming (D : simple_usrp σ ε) (args : String)
    (type_size : Nat) (garbage : Bool) (e : ε) (h : D.make args = .error e) :
    uhd_simple_source_ctor D args type_size garbage = (.error e, []) := by
  simp [uhd_simple_source_ctor, h]

/-- Witness of C9: a device that cannot be reached. -/
theorem ctor_fails_before_streaming_witness :
    unreachable_device.make "addr=192.168.10.2" = .error "no device at addr=192.168.10.2" ∧
    uhd_simple_source_ctor unreachable_device "addr=192.168.10.2" 8 true =
      (.error "no device at addr=192.168.10.2", []) :=
  ⟨rfl, ctor_fails_before_streaming unreachable_device "addr=192.168.10.2" 8 true
    "no device at addr=192.168.10.2" rfl⟩

theorem flag_follows_cmd_append : ∀ (a b : List (Effect ε)),
    flag_follows_cmd a = true → flag_follows_cmd (a ++ b) = flag_follows_cmd b
  | [], _, _ => rfl
  | .issue_stream_cmd m none :: .set_is_streaming e :: rest, b, h => by
    simp only [flag_follows_cmd, Bool.and_eq_true, decide_eq_true_eq] at h
    have ih := flag_follows_cmd_append rest b h.2
    have ih1 : flag_follows_cmd (rest.append b) = flag_follows_cmd b := ih
    simp [flag_follows_cmd, h.1, ih, ih1]
  | .issue_stream_cmd _ (some _) :: rest, b, h => by
    simp only [flag_follows_cmd] at h
    have ih := flag_follows_cmd_append rest b h
    have ih1 : flag_follows_cmd (rest.append b) = flag_follows_cmd b := ih
    simp [flag_follows_cmd, ih, ih1]
  | .recv c :: rest, b, h => by
    simp only [flag_follows_cmd] at h
    have ih := flag_follows_cmd_append rest b h
    have ih1 : flag_follows_cmd (rest.append b) = flag_follows_cmd b := ih
    simp [flag_follows_cmd, ih, ih1]
  | [.issue_stream_cmd _ none], _, h => by simp [flag_follows_cmd] at h
  | .issue_stream_cmd _ none :: .issue_stream_cmd _ _ :: _, _, h => by
    simp [flag_follows_cmd] at h
  | .issue_stream_cmd _ none :: .recv _ :: _, _, h => by simp [flag_follows_cmd] at h
  | .set_is_streaming _ :: _, _, h => by simp [flag_follows_cmd] at h

theorem flag_follows_cmd_map (l : List (recv_call ε)) :
    flag_follows_cmd (l.map Effect.recv) = true := by
  induction l with
  | nil => rfl
  | cons c l ih => simp [flag_follows_cmd, ih]

/-- What `set_streaming` does to the flag and to the stream commands: either
the command threw and the flag is as before, or it returned and the flag is
the one it stands for. -/
theorem set_streaming_keeps_flag (D : simple_usrp σ ε) (self : uhd_simple_source σ)
    (enb : Bool) :
    flag_follows_cmd (set_streaming D self enb).2.2 = true ∧
    ((completed_cmds (set_streaming D self enb).2.2 = [] ∧
        (set_streaming D self enb).2.1._is_streaming = self._is_streaming) ∨
      (completed_cmds (set_streaming D self enb).2.2).getLast? =
        some (mode_of (set_streaming D self enb).2.1._is_streaming)) := by
  cases enb
  · rcases hcmd : D.issue_stream_cmd .STREAM_MODE_STOP_CONTINUOUS self._dev with ⟨o, dev1⟩
    cases o <;> simp [set_streaming, hcmd, flag_follows_cmd, completed_cmds, mode_of]
  · rcases hcmd : D.issue_stream_cmd .STREAM_MODE_START_CONTINUOUS self._dev with ⟨o, dev1⟩
    cases o <;> simp [set_streaming, hcmd, flag_follows_cmd, completed_cmds, mode_of]

theorem step_keeps_flag (D : simple_usrp σ ε) (self : uhd_simple_source σ) (c : Call) :
    flag_follows_cmd (step D self c).2 = true ∧
    ((completed_cmds (step D self c).2 = [] ∧
        (step D self c).1._is_streaming = self._is_streaming) ∨
      (completed_cmds (step D self c).2).getLast? =
        some (mode_of (step D self c).1._is_streaming)) := by
  cases c with
  | set_streaming enb => exact set_streaming_keeps_flag D self enb
  | work fuel n =>
    simp only [step]
    cases hs : start_error D self with
    | some e =>
      obtain ⟨_, h2, h3⟩ := work_of_start_error D fuel self n e hs
      have hf : self._is_streaming = false := by
        cases hf : self._is_streaming
        · rfl
        · simp [start_error, hf] at hs
      rw [h2, h3, hf]
      simp [flag_follows_cmd, completed_cmds]
    | none =>
      rw [work_effects D fuel self n hs, work_flag D fuel self n hs]
      cases hf : self._is_streaming
      · refine ⟨?_, Or.inr ?_⟩
        · simp [work_start_effects, flag_follows_cmd, flag_follows_cmd_map, mode_of]
        · simp [work_start_effects, completed_cmds, completed_cmds_map, mode_of]
      · refine ⟨?_, Or.inl ⟨?_, rfl⟩⟩
        · simp [work_start_effects, flag_follows_cmd_map]
        · simp [work_start_effects, completed_cmds_map]

theorem run_keeps_flag (D : simple_usrp σ ε) (calls : List Call) :
    ∀ self : uhd_simple_source σ,
      flag_follows_cmd (run D calls self).2 = true ∧
      ((completed_cmds (run D calls self).2 = [] ∧
          (run D calls self).1._is_streaming = self._is_streaming) ∨
        (completed_cmds (run D calls self).2).getLast? =
          some (mode_of (run D calls self).1._is_streaming)) := by
  induction calls with
  | nil => intro self; simp [run, flag_follows_cmd, completed_cmds]
  | cons c cs ih =>
    intro self
    obtain ⟨s1, s2⟩ := step_keeps_flag D self c
    obtain ⟨r1, r2⟩ := ih (step D self c).1
    simp only [run]
    refine ⟨?_, ?_⟩
    · rw [flag_follows_cmd_append _ _ s1]; exact r1
    · rw [completed_cmds_append]
      rcases r2 with ⟨r2a, r2b⟩ | r2
      · rw [r2a, List.append_nil, r2b]
        exact s2
      · right
        rw [List.getLast?_append, r2]
        rfl

theorem ctor_ok (D : simple_usrp σ ε) (args : String) (type_size : Nat) (garbage : Bool)
    (s0 : uhd_simple_source σ) (e0 : List (Effect ε))
    (h : uhd_simple_source_ctor D args type_size garbage = (.ok s0, e0)) :
    s0._is_streaming = false ∧
    e0 = [.issue_stream_cmd .STREAM_MODE_STOP_CONTINUOUS none, .set_is_streaming false] := by
  unfold uhd_simple_source_ctor at h
  cases hm : D.make args with
  | error e => rw [hm] at h; simp at h
  | ok dev =>
    rw [hm] at h
    rcases hcmd : D.issue_stream_cmd .STREAM_MODE_STOP_CONTINUOUS dev with ⟨o, dev1⟩
    cases o with
    | some e => simp [set_streaming, hcmd] at h
    | none =>
      simp only [set_streaming, Bool.false_eq_true, if_false, hcmd, Prod.mk.injEq,
        Except.ok.injEq] at h
      exact ⟨by rw [← h.1], h.2.symm⟩

theorem flag_mirrors_of (flag : Bool) (effects : List (Effect ε))
    (hlast : (completed_cmds effects).getLast? = some (mode_of flag))
    (hpair : flag_follows_cmd effects = true) : flag_mirrors flag effects := by
  unfold flag_mirrors
  rw [hlast]
  refine ⟨?_, ?_, hpair⟩ <;> cases flag <;> simp [mode_of]

/-- C8, as stated, fails: on a device that refuses to start, construction
succeeds, `set_streaming(true)` throws, and the block is left with its flag
false although the last stream command issued to the device was
start-continuous. -/
theorem streaming_flag_diverges_counterexample :
    uhd_simple_source_ctor refusing_device "addr=192.168.10.2" 8 true =
      (.ok ⟨(), 8, false⟩,
        [.issue_stream_cmd .STREAM_MODE_STOP_CONTINUOUS none, .set_is_streaming false]) ∧
    (run refusing_device [.set_streaming true] ⟨(), 8, false⟩).1._is_streaming = false ∧
    (stream_cmds
      ([.issue_stream_cmd .STREAM_MODE_STOP_CONTINUOUS none, .set_is_streaming false] ++
        (run refusing_device [.set_streaming true] ⟨(), 8, false⟩).2 :
          List (Effect String))).getLast? = some .STREAM_MODE_START_CONTINUOUS :=
  ⟨rfl, rfl, rfl⟩

/-- C8, amended. In every state reached by a successful construction followed
by any sequence of calls of `set_streaming` and `work`, and in the state the
destructor leaves when it ends that sequence, the flag `_is_streaming` is true
exactly when the last stream command that returned without an error was
start-continuous, and false exactly when it was stop-continuous; and every
assignment of the flag directly follows the stream command of `set_streaming`
that it matches, the flag being assigned nowhere else. -/
theorem streaming_flag_mirrors_completed_cmd (D : simple_usrp σ ε) (args : String)
    (type_size : Nat) (garbage : Bool) (calls : List Call)
    (s0 : uhd_simple_source σ) (e0 : List (Effect ε))
    (h : uhd_simple_source_ctor D args type_size garbage = (.ok s0, e0)) :
    flag_mirrors (run D calls s0).1._is_streaming (e0 ++ (run D calls s0).2) ∧
    flag_mirrors (uhd_simple_source_dtor D (run D calls s0).1).2.1._is_streaming
      (e0 ++ (run D calls s0).2 ++ (uhd_simple_source_dtor D (run D calls s0).1).2.2) := by
  obtain ⟨hs, he⟩ := ctor_ok D args type_size garbage s0 e0 h
  obtain ⟨r1, r2⟩ := run_keeps_flag D calls s0
  have hlast : (completed_cmds (e0 ++ (run D calls s0).2)).getLast? =
      some (mode_of (run D calls s0).1._is_streaming) := by
    rw [completed_cmds_append]
    rcases r2 with ⟨r2a, r2b⟩ | r2
    · rw [r2a, List.append_nil, r2b, hs, he]
      simp [completed_cmds, mode_of]
    · rw [List.getLast?_append, r2]
      rfl
  have hpair : flag_follows_cmd (e0 ++ (run D calls s0).2) = true := by
    rw [flag_follows_cmd_append _ _ (by rw [he]; simp [flag_follows_cmd, mode_of])]
    exact r1
  obtain ⟨d1, d2⟩ := set_streaming_keeps_flag D (run D calls s0).1 false
  refine ⟨flag_mirrors_of _ _ hlast hpair, flag_mirrors_of _ _ ?_ ?_⟩
  · rw [completed_cmds_append]
    unfold uhd_simple_source_dtor
    rcases d2 with ⟨d2a, d2b⟩ | d2
    · rw [d2a, List.append_nil, d2b]
      exact hlast
    · rw [List.getLast?_append, d2]
      rfl
  · rw [flag_follows_cmd_append _ _ hpair]
    exact d1

/-- Witness of C8: construction, a `work`, a stop, a `work`, and then the
destructor. -/
theorem streaming_flag_mirrors_completed_cmd_witness :
    uhd_simple_source_ctor (chunk_device 64) "addr=192.168.10.2" 8 true =
      (.ok ⟨(), 8, false⟩,
        [.issue_stream_cmd .STREAM_MODE_STOP_CONTINUOUS none, .set_is_streaming false]) ∧
    flag_mirrors
      (run (chunk_device 64) [.work 4 200, .set_streaming false, .work 4 100]
        ⟨(), 8, false⟩).1._is_streaming
      ([.issue_stream_cmd .STREAM_MODE_STOP_CONTINUOUS none, .set_is_streaming false] ++
        (run (chunk_device 64) [.work 4 200, .set_streaming false, .work 4 100]
          ⟨(), 8, false⟩).2 : List (Effect String)) :=
  ⟨rfl, (streaming_flag_mirrors_completed_cmd (chunk_device 64) "addr=192.168.10.2" 8 true
    [.work 4 200, .set_streaming false, .work 4 100] ⟨(), 8, false⟩
    [.issue_stream_cmd .STREAM_MODE_STOP_CONTINUOUS none, .set_is_streaming false] rfl).1⟩

/-- C10, as stated, fails: the loop is not bounded by `max_items` on every
device. On a device that reports 1 item, then `2^64 - 1`, then 1, then
`2^64 - 1` (the `size_t` accumulator wraps around to 0 each time), `work(2)`
makes five calls of `recv`. -/
theorem work_loop_bound_counterexample :
    (recv_calls (work
        (script_device [.items 1, .items (2 ^ 64 - 1), .items 1, .items (2 ^ 64 - 1)]) 10
        ⟨[.items 1, .items (2 ^ 64 - 1), .items 1, .items (2 ^ 64 - 1)], 1, true⟩
        2).2.2).map (fun c => c.result) =
      [.items 1, .items (2 ^ 64 - 1), .items 1, .items (2 ^ 64 - 1), .items 0] ∧
    ¬ (recv_calls (work
        (script_device [.items 1, .items (2 ^ 64 - 1), .items 1, .items (2 ^ 64 - 1)]) 10
        ⟨[.items 1, .items (2 ^ 64 - 1), .items 1, .items (2 ^ 64 - 1)], 1, true⟩
        2).2.2).length ≤ 2 := by
  refine ⟨by decide, by decide⟩

theorem work_loop_calls_ne_nil (D : simple_usrp σ ε) (ts : Nat) (n : Int) (fuel : Nat)
    (dev : σ) (total : Nat) (h : total < to_size_t n) :
    1 ≤ (work_loop D ts n (fuel + 1) dev total).2.2.length := by
  rcases work_loop_cases D ts n fuel dev total h with
    ⟨e, dev1, _, hw⟩ | ⟨r, dev1, _, _, hw⟩ | ⟨r, dev1, _, _, hw⟩ <;> rw [hw] <;> simp

/-- C10, amended. On every device, `work(0)` makes no call of `recv` (and
returns 0 when its loop is reached, the stream being started without an
error), `work(max_items)` with `max_items ≥ 1` that reaches its loop makes at
least one, and every call of `recv` of a `work` but the last reports at least
one item. On a device whose
`recv` never reports more items than were requested, the loop of
`work(max_items)` finishes within `max_items` iterations and makes at most
`max_items` calls of `recv`. -/
theorem work_loop_bounded (D : simple_usrp σ ε) (self : uhd_simple_source σ)
    (max_items fuel : Nat) (hm : max_items < 2 ^ 31) :
    (max_items = 0 → recv_calls (work D fuel self (max_items : Int)).2.2 = [] ∧
      (start_error D self = none → (work D fuel self (max_items : Int)).1 = .returned 0)) ∧
    (1 ≤ max_items → 1 ≤ fuel → start_error D self = none →
      1 ≤ (recv_calls (work D fuel self (max_items : Int)).2.2).length) ∧
    (∀ c ∈ (recv_calls (work D fuel self (max_items : Int)).2.2).dropLast,
      ∃ r, c.result = .items r ∧ 1 ≤ r) ∧
    (reports_at_most_requested D self._type_size → max_items ≤ fuel →
      (work D fuel self (max_items : Int)).1 ≠ .running ∧
      (recv_calls (work D fuel self (max_items : Int)).2.2).length ≤ max_items) := by
  have hN : to_size_t (max_items : Int) = max_items :=
    to_size_t_natCast _ (by unfold SIZE_MOD; omega)
  cases hs : start_error D self with
  | some e =>
    obtain ⟨h1, h2, _⟩ := work_of_start_error D fuel self (max_items : Int) e hs
    rw [h1, h2]
    simp [recv_calls]
  | none =>
  rw [work_outcome D fuel self _ hs, work_recv_calls D fuel self _ hs]
  refine ⟨?_, ?_, ?_, ?_⟩
  · intro h0
    have h : ¬ 0 < to_size_t (max_items : Int) := by rw [hN]; omega
    rw [work_loop_done D self._type_size _ fuel _ 0 h]
    exact ⟨rfl, fun _ => rfl⟩
  · intro h1 hf _
    obtain ⟨f, rfl⟩ : ∃ f, fuel = f + 1 := ⟨fuel - 1, by omega⟩
    exact work_loop_calls_ne_nil D _ _ f _ 0 (by rw [hN]; omega)
  · exact (work_loop_any D self._type_size (max_items : Int) fuel (work_dev D self) 0
      (by unfold SIZE_MOD; norm_num)).1
  · intro hD hf
    obtain ⟨ha, hb, _⟩ := work_loop_honest D self._type_size (max_items : Int) hD fuel
      (work_dev D self) 0 (Nat.zero_le _) (by rw [hN]; omega)
    rw [hN] at hb
    exact ⟨ha, by simpa using hb⟩

/-- Witness of C10: chunks of 64, 200 items asked, 200 iterations allowed:
the loop finishes after four calls of `recv`. -/
theorem work_loop_bounded_witness :
    200 < 2 ^ 31 ∧ reports_at_most_requested (chunk_device 64) 8 ∧
    (work (chunk_device 64) 200 ⟨(), 8, false⟩ ((200 : Nat) : Int)).1 ≠ .running ∧
    (recv_calls (work (chunk_device 64) 200 ⟨(), 8, false⟩ ((200 : Nat) : Int)).2.2).length
      ≤ 200 :=
  have hD : reports_at_most_requested (chunk_device 64) 8 := by
    intro offset nbytes dev r dev1 hr
    simp only [chunk_device, Prod.mk.injEq, recv_result.items.injEq] at hr
    omega
  ⟨by norm_num, hD,
    (work_loop_bounded (chunk_device 64) ⟨(), 8, false⟩ 200 200 (by norm_num)).2.2.2 hD
      (le_refl _)⟩

end UhdSimpleSource
